import Mathlib

/-!
Verification of the REPL example (`examples/repl.cpp`): a shallow embedding
of the REPL orchestration logic — caret-line rendering (`PrintErrorLine`),
the result-formatting fallback chain (`FormatString` / `FormatResult`),
exception reporting (`ReportAndClearException`), evaluation and printing
(`EvalAndPrint`), the quit convention (`ReplGlobal::quit`), and the
read-eval-print loop (`ReplGlobal::loop`).

Calls into the external script engine (SpiderMonkey) are modelled as
oracles: records of functions standing for the engine entry points the
REPL uses.  The REPL's own control flow is translated directly from the
C++ source.
-/

namespace Repl

/-! ### Caret-line rendering: `PrintErrorLine`, repl.cpp lines 98-107

The C++ loop walks the first `tokenOffset` characters of the report's
source-line buffer, maintaining a filler count `ndots`:

    for (size_t i = 0; i < n; i++) {
      if (linebuf[i] == '\t') { ndots += (ndots + 8) & ~7; continue; }
      ndots++;
    }
    std::cerr << std::string(ndots, '.') << '^';

`(x + 8) & ~7` clears the low three bits of `x + 8`, i.e. equals
`(x + 8) / 8 * 8` for every size_t value that does not wrap; we use the
division form on `Nat`.  Note the `+=`: the code ADDS the rounded value
to `ndots` instead of assigning it. -/

def caretStep (ndots : Nat) (c : Char) : Nat :=
  if c = '\t' then ndots + ((ndots + 8) / 8 * 8) else ndots + 1

def caretFillerCount (linebuf : List Char) (n : Nat) : Nat :=
  (linebuf.take n).foldl caretStep 0

def caretLine (linebuf : List Char) (n : Nat) : List Char :=
  List.replicate (caretFillerCount linebuf n) '.' ++ ['^']

/-- The caret-column advance as the spec words it (§4.5): a literal tab
ADVANCES the column count by rounding it up to the next multiple of 8
(assignment, not the source's `+=`); any other character advances it
by exactly 1.  Kept separate from `caretStep` so the two semantics can
be compared. -/
def specCaretStep (ndots : Nat) (c : Char) : Nat :=
  if c = '\t' then (ndots + 8) / 8 * 8 else ndots + 1

def specCaretFillerCount (linebuf : List Char) (n : Nat) : Nat :=
  (linebuf.take n).foldl specCaretStep 0

/-! ### Values and the formatting oracle

`JSValue` keeps exactly the distinctions `FormatResult` inspects:
strings (`value.isString()`), `undefined` (`result.isUndefined()` in
`EvalAndPrint`), objects (`value.isObject()`), and everything else.
Engine strings are modelled as Lean `String`s; the fallible engine
entry points return `Option`, `none` standing for a failed call that
may leave an exception pending. -/

inductive JSValue where
  | str : String → JSValue
  | undef : JSValue
  | obj : Nat → JSValue
  | other : Nat → JSValue
deriving DecidableEq, Repr

def JSValue.isUndefined : JSValue → Bool
  | .undef => true
  | _ => false

/-- Oracle for the engine calls used by the formatting subsystem:
`JS_EncodeStringToUTF8`, `JS::ToString`, `JS_ValueToSource`,
`JS_GetClass` (on an object, yielding its class name or null) and
`JS_NewStringCopyZ`. -/
structure FmtEngine where
  encodeUTF8 : String → Option String
  toJSString : JSValue → Option String
  valueToSource : JSValue → Option String
  getClass : Nat → Option String
  newStringCopyZ : String → Option String

/-! ### `FormatString` and `FormatResult`, repl.cpp lines 177-232

The second component of each result is the pending-exception flag after
the call.  Per the C++ convention, a failed engine call may set the
pending flag, and the source clears it (`JS_ClearPendingException`)
on every failure path before returning or falling through; we model
the worst case, in which every failed call does set the flag, so a
returned `false` means the clear really happened. -/

def FormatString (eng : FmtEngine) (pending : Bool) (s : String) : String × Bool :=
  match eng.encodeUTF8 s with
  | none => ("[invalid string]", false)
  | some chars => ("\"" ++ chars ++ "\"", pending)

/-- Final encoding step of `FormatResult` (lines 225-231): encode the
chosen engine string to UTF-8; on failure clear the pending fault and
return the `[invalid string]` placeholder. -/
def encodeForDisplay (eng : FmtEngine) (pending : Bool) (str : String) : String × Bool :=
  match eng.encodeUTF8 str with
  | none => ("[invalid string]", false)
  | some bytes => (bytes, pending)

def FormatResult (eng : FmtEngine) (pending : Bool) (value : JSValue) : String × Bool :=
  match value with
  | .str s => FormatString eng pending s
  | _ =>
    match eng.toJSString value with
    | some str => encodeForDisplay eng pending str
    | none =>
      -- JS::ToString failed: clear the fault, try JS_ValueToSource
      match eng.valueToSource value with
      | some str => encodeForDisplay eng false str
      | none =>
        -- that failed too: clear the fault again
        match value with
        | .obj o =>
          match eng.getClass o with
          | some k =>
            match eng.newStringCopyZ k with
            | some str => encodeForDisplay eng false str
            | none => ("[invalid class]", false)
          | none => ("[unknown object]", false)
        | _ => ("[unknown non-object]", false)

/-! ### `EvalAndPrint`, repl.cpp lines 276-296

`evalResult = none` covers both a failed `source.init` and a failed
`JS::Evaluate` (the function returns `false` having printed nothing);
`some v` is a successful evaluation yielding `v`.  `JS_MaybeGC` has no
observable effect and is not modelled.  The returned list is what the
call prints to stdout. -/

def EvalAndPrint (eng : FmtEngine) (evalResult : Option JSValue) : Bool × List String :=
  match evalResult with
  | none => (false, [])
  | some result =>
    if result.isUndefined then (true, [])
    else
      let display := (FormatResult eng false result).1
      (true, if display = "" then [] else [display])

/-! ### `ReportAndClearException`, repl.cpp lines 241-258

The oracle adds the pending-exception retrieval (`JS_GetPendingException`,
`none` = retrieval itself failed) and `JS_ErrorFromException` (reached via
`ErrorFromExceptionValue`, lines 234-239, only for object values).  The
function's behaviour is recorded as a trace of the primitive actions it
performs, in order; `formatError b` records the pending-exception flag at
the moment a formatter (`PrintError` or the `FormatResult` fallback) is
invoked, and `die` stands for the `die(...)` call (repl.cpp lines 70-73),
which prints `fatal error:` to stderr and exits the process. -/

structure ErrorReport where
  linebuf : Option (List Char)
  tokenOffset : Nat
deriving Repr

structure ExcEngine extends FmtEngine where
  getPending : Option JSValue
  errorFromException : Nat → Option ErrorReport

def ErrorFromExceptionValue (eng : ExcEngine) (exception : JSValue) : Option ErrorReport :=
  match exception with
  | .obj o => eng.errorFromException o
  | _ => none

inductive RAct where
  | getPendingOk : RAct
  | getPendingFail : RAct
  | clearPending : RAct
  | formatError : Bool → RAct
  | die : RAct
deriving DecidableEq, Repr

/-- `ReportAndClearException`: returns the trace of actions and the
pending-exception flag when the function returns (on the `die` path the
process never returns; the flag component is unused there). -/
def ReportAndClearException (eng : ExcEngine) (pending : Bool) : List RAct × Bool :=
  match eng.getPending with
  | none =>
    -- die("Uncatchable exception thrown, out of memory or something")
    ([RAct.getPendingFail, RAct.die], pending)
  | some exception =>
    -- JS_ClearPendingException(cx), immediately after retrieval
    let p1 := false
    match ErrorFromExceptionValue eng exception with
    | some _report =>
      -- PrintError(report): structured report formatted with no fault pending
      ([RAct.getPendingOk, RAct.clearPending, RAct.formatError p1], p1)
    | none =>
      -- JS_ClearPendingException(cx) again, then the FormatResult fallback
      let p2 := false
      let r := FormatResult eng.toFmtEngine p2 exception
      ([RAct.getPendingOk, RAct.clearPending, RAct.clearPending, RAct.formatError p2], r.2)

/-! ### The loop: `ReplGlobal::quit`, `js::RunJobs`, `ReplGlobal::loop`

Loop-level engine state: the `ReplGlobal` private flag `m_shouldQuit`,
the engine's stop-draining latch set by `js::StopDrainingJobQueue`, the
pending-exception flag, and the queued jobs (by id).  Evaluation of a
buffer is an oracle `EvalFn` — it may succeed or fail and may mutate the
state arbitrarily (scripts can enqueue jobs, throw, or call `quit`).
Lines as read by `readline` carry no trailing newline; `buffer += line`
is plain concatenation.  A line is a `List Char`. -/

abbrev Buffer := List Char

abbrev Line := List Char

structure EngineState where
  shouldQuit : Bool
  stopDraining : Bool
  pendingExc : Bool
  jobs : List Nat
deriving DecidableEq, Repr

/-- `ReplGlobal::quit` (repl.cpp lines 42-53): set `m_shouldQuit`, call
`js::StopDrainingJobQueue`, and return `false` WITHOUT setting a pending
exception (the "uncatchable" convention). -/
def quit (st : EngineState) : Bool × EngineState :=
  (false, { st with shouldQuit := true, stopDraining := true })

/-- The engine's `js::RunJobs`: drains the internal job queue, running
every queued continuation, unless `js::StopDrainingJobQueue` has been
called, in which case the drain is interrupted and runs nothing.
Returns the new state and the list of jobs actually run. -/
def RunJobs (st : EngineState) : EngineState × List Nat :=
  if st.stopDraining then (st, []) else ({ st with jobs := [] }, st.jobs)

/-- Oracle for `EvalAndPrint`'s engine side at loop level: given the
buffer, the starting line number and the state, evaluation either
succeeds (`true`) or fails (`false`), with an updated state. -/
abbrev EvalFn := Buffer → Nat → EngineState → Bool × EngineState

/-- Result of the inner accumulation loop (repl.cpp lines 309-320):
the accumulated buffer, whether `readline` signalled end of input, the
unread remainder of the input, and how many lines were consumed. -/
structure AccResult where
  buffer : Buffer
  eof : Bool
  rest : List Line
  consumed : Nat
deriving DecidableEq, Repr

/-- The inner `do ... while (!JS_Utf8BufferIsCompilableUnit(...))` loop:
read a line (end of the list = `readline` returned null, i.e. EOF),
append it to the buffer, and stop as soon as the probe reports the
buffer is a complete compilable unit. -/
def accumulate (probe : Buffer → Bool) : List Line → Buffer → AccResult
  | [], buf => ⟨buf, true, [], 0⟩
  | l :: rest, buf =>
    let b := buf ++ l
    if probe b then ⟨b, false, rest, 1⟩
    else
      let r := accumulate probe rest b
      ⟨r.buffer, r.eof, r.rest, r.consumed + 1⟩

/-- Observable events of one outer-loop iteration: the `EvalAndPrint`
call (with the submitted buffer, the starting line number, and whether
the inner loop ended by end-of-input), the `ReportAndClearException`
call, and the `js::RunJobs` call (with the jobs it ran). -/
inductive Ev where
  | evalCall : Buffer → Nat → Bool → Ev
  | reportCall : Ev
  | runJobs : List Nat → Ev
deriving DecidableEq, Repr

structure IterResult where
  events : List Ev
  state : EngineState
  eof : Bool
  rest : List Line
  lineno : Nat
  continues : Bool
  ranJobs : List Nat
deriving Repr

/-- One iteration of the outer `do ... while (!eof && !m_shouldQuit)`
loop body (repl.cpp lines 301-327): accumulate a buffer, call
`EvalAndPrint`; on failure consult `m_shouldQuit` — if set, swallow the
failure silently, otherwise call `ReportAndClearException` (which clears
the pending exception); then call `js::RunJobs` unconditionally.
`continues` is the value of the loop condition `!eof && !m_shouldQuit`
evaluated after the iteration. -/
def loopIter (probe : Buffer → Bool) (evalFn : EvalFn)
    (input : List Line) (st : EngineState) (lineno : Nat) : IterResult :=
  let acc := accumulate probe input []
  let r := evalFn acc.buffer lineno st
  let st1 := r.2
  let reported := !r.1 && !st1.shouldQuit
  let st2 := if reported then { st1 with pendingExc := false } else st1
  let rj := RunJobs st2
  { events := Ev.evalCall acc.buffer lineno acc.eof ::
      ((if reported then [Ev.reportCall] else []) ++ [Ev.runJobs rj.2]),
    state := rj.1,
    eof := acc.eof,
    rest := acc.rest,
    lineno := lineno + acc.consumed,
    continues := !acc.eof && !rj.1.shouldQuit,
    ranJobs := rj.2 }

/-- The full `ReplGlobal::loop`, fuelled: each iteration consumes at
least the lines `accumulate` read, so fuel `input.length + 1` always
suffices.  Returns the concatenated event trace. -/
def loop (probe : Buffer → Bool) (evalFn : EvalFn) :
    Nat → List Line → EngineState → Nat → List Ev
  | 0, _, _, _ => []
  | fuel + 1, input, st, lineno =>
    let it := loopIter probe evalFn input st lineno
    it.events ++ (if it.continues then loop probe evalFn fuel it.rest it.state it.lineno else [])

/-- Concatenation of a list of lines, the way `buffer += line` joins
them: no separator. -/
def concatL : List Line → Buffer
  | [] => []
  | l :: ls => l ++ concatL ls

/-! ### Concrete instances used to evaluate the model -/

/-- Every fallible formatting step fails: `JS::ToString`,
`JS_ValueToSource`, `JS_NewStringCopyZ` and `JS_EncodeStringToUTF8` all
return null. -/
def failFmtEngine : FmtEngine :=
  ⟨fun _ => none, fun _ => none, fun _ => none, fun _ => none, fun _ => none⟩

/-- UTF-8 encoding succeeds and is the identity; the other oracle calls
are irrelevant for the string and undefined cases. -/
def idFmtEngine : FmtEngine :=
  ⟨fun s => some s, fun _ => none, fun _ => none, fun _ => none, fun _ => none⟩

/-- An engine with a retrievable pending exception that is not an
object, hence carries no structured error report. -/
def plainExcEngine : ExcEngine :=
  { toFmtEngine := idFmtEngine
    getPending := some (JSValue.other 0)
    errorFromException := fun _ => none }

def st0 : EngineState := ⟨false, false, false, []⟩

/-- A state with two continuations already queued. -/
def stJobs : EngineState := ⟨false, false, false, [5, 6]⟩

def pTrue : Buffer → Bool := fun _ => true

def pFalse : Buffer → Bool := fun _ => false

/-- A probe that reports the buffer complete once it has at least two
characters. -/
def probeLen2 : Buffer → Bool := fun b => decide (2 ≤ b.length)

/-- Evaluation that models a script calling `quit()`. -/
def quitEvalFn : EvalFn := fun _ _ st => quit st

/-- Evaluation that always succeeds without touching the state. -/
def okEvalFn : EvalFn := fun _ _ st => (true, st)

/-- Evaluation that fails leaving an exception pending. -/
def failEvalFn : EvalFn := fun _ _ st => (false, { st with pendingExc := true })

/-- The spec's condition "every fallback step faults": each fallible
engine call of the formatting chain fails. -/
def AllStepsFail (eng : FmtEngine) : Prop :=
  (∀ s, eng.encodeUTF8 s = none) ∧ (∀ v, eng.toJSString v = none) ∧
  (∀ v, eng.valueToSource v = none) ∧ (∀ k, eng.newStringCopyZ k = none)

/-- The four literal placeholder strings of the fallback chain. -/
def placeholders : List String :=
  ["[invalid string]", "[unknown object]", "[unknown non-object]", "[invalid class]"]

/-! ## Helper lemmas -/

theorem formatString_pending (eng : FmtEngine) (s : String) :
    (FormatString eng false s).2 = false := by
  unfold FormatString
  cases eng.encodeUTF8 s <;> simp

theorem encodeForDisplay_pending (eng : FmtEngine) (str : String) :
    (encodeForDisplay eng false str).2 = false := by
  unfold encodeForDisplay
  cases eng.encodeUTF8 str <;> simp

/-- Starting with no fault pending, `FormatResult` returns with no fault
pending, whatever the engine does. -/
theorem formatResult_pending (eng : FmtEngine) (v : JSValue) :
    (FormatResult eng false v).2 = false := by
  unfold FormatResult
  cases v
  case str s => exact formatString_pending eng s
  case obj o =>
    cases h1 : eng.toJSString (JSValue.obj o)
    case some s => simp [encodeForDisplay_pending]
    case none =>
      cases h2 : eng.valueToSource (JSValue.obj o)
      case some s => simp [encodeForDisplay_pending]
      case none =>
        cases h3 : eng.getClass o
        case none => simp [h3]
        case some k =>
          cases h4 : eng.newStringCopyZ k
          case none => simp [h3, h4]
          case some str => simp [h3, h4, encodeForDisplay_pending]
  all_goals
    cases h1 : eng.toJSString _
    case some s => simp [encodeForDisplay_pending]
    case none =>
      cases h2 : eng.valueToSource _
      case some s => simp [encodeForDisplay_pending]
      case none => simp

/-- When every fallible formatting step fails, `FormatResult` returns
one of the four literal placeholders. -/
theorem formatResult_allfail (eng : FmtEngine) (h : AllStepsFail eng) (v : JSValue) :
    (FormatResult eng false v).1 ∈ placeholders := by
  obtain ⟨he, ht, hv, hn⟩ := h
  cases v
  case str s => simp [FormatResult, FormatString, he, placeholders]
  case obj o =>
    cases hg : eng.getClass o <;>
      simp [FormatResult, ht, hv, hn, hg, placeholders]
  all_goals simp [FormatResult, ht, hv, placeholders]

/-- `js::RunJobs` does not touch the quit flag. -/
theorem runJobs_shouldQuit (st : EngineState) :
    (RunJobs st).1.shouldQuit = st.shouldQuit := by
  unfold RunJobs
  split <;> rfl

/-- An interrupted `js::RunJobs` runs no jobs. -/
theorem runJobs_ran_stopDraining (st : EngineState) (h : st.stopDraining = true) :
    (RunJobs st).2 = [] := by
  simp [RunJobs, h]

/-- When the inner accumulation loop stops for a reason other than end
of input, the probe accepted the accumulated buffer. -/
theorem accumulate_probe_of_not_eof (probe : Buffer → Bool) :
    ∀ (input : List Line) (buf : Buffer),
      (accumulate probe input buf).eof = false →
      probe (accumulate probe input buf).buffer = true := by
  intro input
  induction input with
  | nil => intro buf h; simp [accumulate] at h
  | cons l rest ih =>
    intro buf h
    by_cases hp : probe (buf ++ l) = true
    · simp [accumulate, hp]
    · have hp2 : probe (buf ++ l) = false := by simpa using hp
      simp only [accumulate, hp2, Bool.false_eq_true, if_false] at h ⊢
      exact ih (buf ++ l) h

/-! ## Claim theorems -/

/-- Claim C2: the source's tab arithmetic (`ndots += (ndots + 8) & ~7`)
does NOT advance the filler count by rounding it up to the next multiple
of 8.  At the failing input — a source line `a` followed by a tab, token
offset 2 — the code produces 9 filler characters, while the
round-up-to-next-multiple-of-8 semantics the claim describes produces 8. -/
theorem caret_tab_code_diverges_from_rounding :
    caretFillerCount ['a', '\t'] 2 = 9 ∧
    specCaretFillerCount ['a', '\t'] 2 = 8 := by
  constructor <;> decide

/-- Claim C3: for a token offset of 5 on a source line beginning with
one tab followed by four spaces, the code's caret line has exactly 12
filler characters before the caret. -/
theorem caret_tab_offset_five :
    caretFillerCount ['\t', ' ', ' ', ' ', ' '] 5 = 12 ∧
    caretLine ['\t', ' ', ' ', ' ', ' '] 5 = List.replicate 12 '.' ++ ['^'] := by
  constructor <;> decide

/-- Claim C6: starting with no fault pending, `FormatResult` never
returns with a fault pending, whatever the engine calls do; and when
every fallible fallback step fails, it returns one of the four literal
placeholder strings. -/
theorem format_result_no_pending_fault (eng : FmtEngine) (v : JSValue) :
    (FormatResult eng false v).2 = false ∧
    (AllStepsFail eng → (FormatResult eng false v).1 ∈ placeholders) :=
  ⟨formatResult_pending eng v, fun h => formatResult_allfail eng h v⟩

theorem format_result_no_pending_fault_witness :
    AllStepsFail failFmtEngine ∧
    (FormatResult failFmtEngine false (JSValue.obj 0)).2 = false ∧
    (FormatResult failFmtEngine false (JSValue.obj 0)).1 ∈ placeholders := by
  have h : AllStepsFail failFmtEngine :=
    ⟨fun _ => rfl, fun _ => rfl, fun _ => rfl, fun _ => rfl⟩
  exact ⟨h, (format_result_no_pending_fault failFmtEngine (JSValue.obj 0)).1,
    (format_result_no_pending_fault failFmtEngine (JSValue.obj 0)).2 h⟩

/-- Claim C8: a successful evaluation whose result is the string
`hello` prints `"hello"` (with the double quotes); a successful
evaluation whose result is undefined prints nothing. -/
theorem eval_print_hello_and_undefined :
    EvalAndPrint idFmtEngine (some (JSValue.str "hello")) = (true, ["\"hello\""]) ∧
    EvalAndPrint idFmtEngine (some JSValue.undef) = (true, []) := by
  constructor <;> rfl

/-- Claim C10: `ReplGlobal::quit` returns `false` while leaving the
pending-exception state untouched (the uncatchable convention), sets the
quit flag, and calls `js::StopDrainingJobQueue`; consequently a
subsequent `js::RunJobs` runs no jobs at all — continuations queued
before the call stay queued and never execute. -/
theorem quit_sets_flags_and_stops_jobs (st : EngineState) :
    (quit st).1 = false ∧
    (quit st).2.pendingExc = st.pendingExc ∧
    (quit st).2.shouldQuit = true ∧
    (quit st).2.stopDraining = true ∧
    (quit st).2.jobs = st.jobs ∧
    RunJobs (quit st).2 = ((quit st).2, []) :=
  ⟨rfl, rfl, rfl, rfl, rfl, rfl⟩

/-- Claim C9: `ReportAndClearException` dies exactly when retrieving the
pending exception fails — the only abort in its call graph; whenever
retrieval succeeds, its first two actions are the retrieval and the
clearing of the pending state, every formatter invocation happens with
no fault pending, and it returns with no fault pending. -/
theorem report_and_clear_discipline (eng : ExcEngine) (pending : Bool) :
    (RAct.die ∈ (ReportAndClearException eng pending).1 ↔ eng.getPending = none) ∧
    (∀ exc, eng.getPending = some exc →
      (ReportAndClearException eng pending).1.take 2 =
        [RAct.getPendingOk, RAct.clearPending] ∧
      (∀ b, RAct.formatError b ∈ (ReportAndClearException eng pending).1 → b = false) ∧
      (ReportAndClearException eng pending).2 = false) := by
  cases hg : eng.getPending with
  | none =>
    constructor
    · simp [ReportAndClearException, hg]
    · intro exc hx
      exact absurd hx (by simp)
  | some exception =>
    constructor
    · cases hr : ErrorFromExceptionValue eng exception <;>
        simp [ReportAndClearException, hg, hr]
    · intro exc hx
      obtain rfl : exception = exc := by injection hx
      cases hr : ErrorFromExceptionValue eng exception <;>
        simp [ReportAndClearException, hg, hr, formatResult_pending]

theorem report_and_clear_discipline_witness :
    plainExcEngine.getPending = some (JSValue.other 0) ∧
    (ReportAndClearException plainExcEngine false).1.take 2 =
      [RAct.getPendingOk, RAct.clearPending] ∧
    (ReportAndClearException plainExcEngine false).2 = false :=
  ⟨rfl,
    ((report_and_clear_discipline plainExcEngine false).2 (JSValue.other 0) rfl).1,
    ((report_and_clear_discipline plainExcEngine false).2 (JSValue.other 0) rfl).2.2⟩

/-- Claim C1: when an evaluation fails, the loop body consults the quit
flag before the exception reporter — if the flag is set after the failed
evaluation, no `ReportAndClearException` call happens and the loop
condition is false (the loop terminates); if it is unset, the failure is
forwarded to `ReportAndClearException`. -/
theorem loop_failure_quit_guard (probe : Buffer → Bool) (evalFn : EvalFn)
    (input : List Line) (st : EngineState) (lineno : Nat)
    (hfail : (evalFn (accumulate probe input []).buffer lineno st).1 = false) :
    ((evalFn (accumulate probe input []).buffer lineno st).2.shouldQuit = true →
      Ev.reportCall ∉ (loopIter probe evalFn input st lineno).events ∧
      (loopIter probe evalFn input st lineno).continues = false) ∧
    ((evalFn (accumulate probe input []).buffer lineno st).2.shouldQuit = false →
      Ev.reportCall ∈ (loopIter probe evalFn input st lineno).events) := by
  constructor
  · intro hq
    constructor
    · simp [loopIter, hfail, hq]
    · simp [loopIter, hfail, hq, runJobs_shouldQuit]
  · intro hq
    simp [loopIter, hfail, hq]

theorem loop_failure_quit_guard_witness :
    (quitEvalFn (accumulate pTrue [['q']] []).buffer 1 st0).1 = false ∧
    (quitEvalFn (accumulate pTrue [['q']] []).buffer 1 st0).2.shouldQuit = true ∧
    (Ev.reportCall ∉ (loopIter pTrue quitEvalFn [['q']] st0 1).events ∧
      (loopIter pTrue quitEvalFn [['q']] st0 1).continues = false) :=
  ⟨by decide, by decide,
    (loop_failure_quit_guard pTrue quitEvalFn [['q']] st0 1 (by decide)).1 (by decide)⟩

/-- Claim C4 counterexample: with an immediately exhausted input source
(the first `readline` returns null) the loop body still submits the
empty buffer to `EvalAndPrint`, even though the probe never accepted it
— refuting "in the end-of-input case an empty buffer is never submitted
to the Evaluator". -/
theorem empty_buffer_submitted_at_eof_cex :
    (loopIter pFalse okEvalFn [] st0 1).eof = true ∧
    pFalse [] = false ∧
    Ev.evalCall [] 1 true ∈ (loopIter pFalse okEvalFn [] st0 1).events := by
  refine ⟨rfl, rfl, ?_⟩
  decide

/-- Claim C4 (amended): every buffer submitted to `EvalAndPrint` was
either accepted by the compilability probe or was cut short by end of
input (in the latter case it is submitted as-is, even when empty). -/
theorem buffer_submitted_only_complete_or_eof (probe : Buffer → Bool) (evalFn : EvalFn) :
    ∀ (fuel : Nat) (input : List Line) (st : EngineState) (lineno : Nat)
      (buf : Buffer) (sl : Nat) (ef : Bool),
      Ev.evalCall buf sl ef ∈ loop probe evalFn fuel input st lineno →
      probe buf = true ∨ ef = true := by
  intro fuel
  induction fuel with
  | zero =>
    intro input st lineno buf sl ef h
    simp [loop] at h
  | succ n ih =>
    intro input st lineno buf sl ef h
    rw [loop] at h
    rcases List.mem_append.1 h with hin | hrest
    · have hin2 := hin
      simp only [loopIter, List.mem_cons, List.mem_append] at hin2
      rcases hin2 with hhead | htail
      · obtain ⟨hbuf, -, hef⟩ : buf = (accumulate probe input []).buffer ∧
            sl = lineno ∧ ef = (accumulate probe input []).eof := by
          injection hhead with a b c
          exact ⟨a, b, c⟩
        subst hbuf
        subst hef
        cases hef2 : (accumulate probe input []).eof with
        | true => exact Or.inr rfl
        | false => exact Or.inl (accumulate_probe_of_not_eof probe input [] hef2)
      · exfalso
        rcases htail with hrep | hrj
        · split at hrep <;> simp at hrep
        · simp at hrj
    · split at hrest
      · exact ih _ _ _ buf sl ef hrest
      · simp at hrest

theorem buffer_submitted_only_complete_or_eof_witness :
    (Ev.evalCall [] 1 true ∈ loop pFalse okEvalFn 1 [] st0 1) ∧
    (pFalse [] = true ∨ true = true) :=
  ⟨by decide,
    buffer_submitted_only_complete_or_eof pFalse okEvalFn 1 [] st0 1 [] 1 true (by decide)⟩

/-- Claim C5 counterexample: a statement that calls `quit()` leaves the
quit flag set after the failed evaluation, yet the loop body still
performs its `js::RunJobs` call — the job-queue drain step is invoked,
not skipped, when quitting (it merely runs no jobs, because `quit`
already called `js::StopDrainingJobQueue`). -/
theorem drain_called_when_quitting_cex :
    (loopIter pTrue quitEvalFn [['q']] stJobs 1).state.shouldQuit = true ∧
    Ev.runJobs [] ∈ (loopIter pTrue quitEvalFn [['q']] stJobs 1).events := by
  refine ⟨rfl, ?_⟩
  decide

/-- Claim C5 (amended): after every evaluation, successful or failed,
the loop body invokes the job-queue drain — including when the quit flag
is set; when the evaluation left the engine's stop-draining latch set
(which `quit` always does), that drain runs no jobs. -/
theorem drain_after_every_eval (probe : Buffer → Bool) (evalFn : EvalFn)
    (input : List Line) (st : EngineState) (lineno : Nat) :
    (Ev.runJobs (loopIter probe evalFn input st lineno).ranJobs ∈
      (loopIter probe evalFn input st lineno).events) ∧
    ((evalFn (accumulate probe input []).buffer lineno st).2.stopDraining = true →
      (loopIter probe evalFn input st lineno).ranJobs = []) := by
  constructor
  · simp [loopIter]
  · intro hsd
    simp only [loopIter]
    rw [runJobs_ran_stopDraining]
    split <;> simpa using hsd

theorem drain_after_every_eval_witness :
    ((quitEvalFn (accumulate pTrue [['q']] []).buffer 1 stJobs).2.stopDraining = true) ∧
    (loopIter pTrue quitEvalFn [['q']] stJobs 1).ranJobs = [] :=
  ⟨by decide, (drain_after_every_eval pTrue quitEvalFn [['q']] stJobs 1).2 (by decide)⟩

/-- When the probe rejects every proper prefix joined from the first
`j < N` lines and accepts the join of the first `N`, the inner loop
consumes exactly `N` lines and accumulates exactly their concatenation. -/
theorem accumulate_concat_spec (probe : Buffer → Bool) :
    ∀ (input : List Line) (N : Nat) (buf : Buffer),
      1 ≤ N → N ≤ input.length →
      (∀ j, 1 ≤ j → j < N → probe (buf ++ concatL (input.take j)) = false) →
      probe (buf ++ concatL (input.take N)) = true →
      accumulate probe input buf =
        ⟨buf ++ concatL (input.take N), false, input.drop N, N⟩ := by
  intro input
  induction input with
  | nil =>
    intro N buf h1 hlen hinc hcomp
    exact absurd (Nat.le_trans h1 hlen) (by simp)
  | cons l rest ih =>
    intro N buf h1 hlen hinc hcomp
    match N, h1 with
    | 1, _ =>
      have hfirst : probe (buf ++ l) = true := by
        simpa [concatL] using hcomp
      simp [accumulate, hfirst, concatL]
    | (M + 2), _ =>
      have hfirst : probe (buf ++ l) = false := by
        simpa [concatL] using hinc 1 (Nat.le_refl 1) (by omega)
      have hrec := ih (M + 1) (buf ++ l) (by omega) (by simpa using hlen)
        (fun j hj1 hj2 => by
          simpa [concatL, List.append_assoc] using hinc (j + 1) (by omega) (by omega))
        (by simpa [concatL, List.append_assoc] using hcomp)
      simp [accumulate, hfirst, hrec, concatL, List.append_assoc]

/-- Claim C7: if the compilability probe reports incomplete on the
concatenation of the first `j` lines for every `1 ≤ j < N` and complete
on the concatenation of the first `N`, then the loop body submits to
`EvalAndPrint` exactly the concatenation of those `N` lines, in order. -/
theorem multiline_buffer_is_concat (probe : Buffer → Bool) (evalFn : EvalFn)
    (input : List Line) (N : Nat) (st : EngineState) (lineno : Nat)
    (h1 : 1 ≤ N) (hlen : N ≤ input.length)
    (hinc : ∀ j, 1 ≤ j → j < N → probe (concatL (input.take j)) = false)
    (hcomp : probe (concatL (input.take N)) = true) :
    Ev.evalCall (concatL (input.take N)) lineno false ∈
      (loopIter probe evalFn input st lineno).events := by
  have hacc := accumulate_concat_spec probe input N [] h1 hlen
    (fun j hj1 hj2 => by simpa using hinc j hj1 hj2)
    (by simpa using hcomp)
  simp [loopIter, hacc]

theorem multiline_buffer_is_concat_witness :
    (1 ≤ 2) ∧ (2 ≤ ([['a'], ['b']] : List Line).length) ∧
    probeLen2 (concatL (([['a'], ['b']] : List Line).take 2)) = true ∧
    Ev.evalCall (concatL (([['a'], ['b']] : List Line).take 2)) 1 false ∈
      (loopIter probeLen2 okEvalFn [['a'], ['b']] st0 1).events :=
  ⟨by decide, by decide, by decide,
    multiline_buffer_is_concat probeLen2 okEvalFn [['a'], ['b']] 2 st0 1
      (by decide) (by decide)
      (fun j hj1 hj2 => by
        have hj : j = 1 := by omega
        subst hj
        decide)
      (by decide)⟩

end Repl
